import Mathlib

/-!
Verification of the Ludo game engine (`LudoGame.py`).

The Python program is shallowly embedded: the `Player`, `Token`, `Board` and
`LudoGame` classes become Lean structures, the mutable dictionaries become
association lists in insertion order, and every method becomes a pure function
threading the game state.  Python `None` results of `get_space_name` are
modelled as `Option.none`; the sentinel string returned by
`get_player_by_position` is modelled with a sum type.
-/

/-- A token selector: the Python code addresses a player's two tokens by the
strings `'p'` and `'q'`. -/
inductive Tok : Type
  | p : Tok
  | q : Tok
deriving DecidableEq

/-- The per-player state: `Player.__init__` plus the stacked flags of the two
`Token` objects the player owns (`self._token_p._stacked`,
`self._token_q._stacked`).  `start`/`endSpace` model `self._start`/`self._end`,
which are `None` until `set_start_end` runs.  `loc_p`/`loc_q` are the two cells
of `self._token_locs`. -/
structure PlayerState : Type where
  position : String
  start : Option String
  endSpace : Option String
  loc_p : String
  loc_q : String
  p_steps : Int
  q_steps : Int
  p_stacked : Bool
  q_stacked : Bool
deriving DecidableEq

/-- Embeds `Player.__init__(position)`. -/
def mkPlayer (position : String) : PlayerState :=
  { position := position
    start := none
    endSpace := none
    loc_p := "in the home yard"
    loc_q := "in the home yard"
    p_steps := -1
    q_steps := -1
    p_stacked := false
    q_stacked := false }

/-- Embeds `Player.set_start_end`. -/
def set_start_end (st : PlayerState) : PlayerState :=
  if st.position = "A" then { st with start := some "1", endSpace := some "50" }
  else if st.position = "B" then { st with start := some "15", endSpace := some "8" }
  else if st.position = "C" then { st with start := some "29", endSpace := some "22" }
  else if st.position = "D" then { st with start := some "43", endSpace := some "36" }
  else st

/-- Embeds `Player.get_completed`: true iff both token locations read `has finished`. -/
def get_completed (st : PlayerState) : Bool :=
  st.loc_p = "has finished" && st.loc_q = "has finished"

/-- Embeds `Player.can_token_stack`: the chained Python comparison
`0 < p == q < 57` followed by the (redundant) inner equality re-check. -/
def can_token_stack (st : PlayerState) : Bool :=
  if 0 < st.p_steps ∧ st.p_steps = st.q_steps ∧ st.q_steps < 57 then
    if st.p_steps = st.q_steps then true else false
  else false

/-- The step count of the selected token. -/
def tokSteps (st : PlayerState) : Tok → Int
  | Tok.p => st.p_steps
  | Tok.q => st.q_steps

/-- The location tag of the selected token. -/
def tokLoc (st : PlayerState) : Tok → String
  | Tok.p => st.loc_p
  | Tok.q => st.loc_q

/-- The stacked flag of the selected token. -/
def tokStacked (st : PlayerState) : Tok → Bool
  | Tok.p => st.p_stacked
  | Tok.q => st.q_stacked

/-- The other token of the same player. -/
def sibling : Tok → Tok
  | Tok.p => Tok.q
  | Tok.q => Tok.p

/-- Models Python `int(s)` on the stored start string; whenever the game logic
reaches this cast the string is one of the plain decimal numerals set by
`set_start_end`, so reading the digits left to right is exactly `int`. -/
def pyIntOfStr (s : String) : Int :=
  ((s.toList.foldl (fun n c => n * 10 + (c.toNat - '0'.toNat)) 0 : Nat) : Int)

/-- Models Python `str(steps)[-1]`: the last character of the decimal
rendering, as a one-character string. -/
def lastDigitStr (steps : Int) : String :=
  match (toString steps).toList.reverse with
  | c :: _ => String.mk [c]
  | [] => ""

/-- Embeds `Player.get_space_name`: the square name for a step count, or `none`
(Python `None`) outside the `-1..57` domain. -/
def get_space_name (st : PlayerState) (steps : Int) : Option String :=
  if steps = -1 then some "H"
  else if steps = 0 then some "R"
  else if 1 ≤ steps ∧ steps ≤ 50 then
    let space_name := pyIntOfStr (st.start.getD "") + steps - 1
    let space_name := if space_name > 56 then space_name - 56 else space_name
    some (toString space_name)
  else if 51 ≤ steps ∧ steps ≤ 56 then
    some (st.position ++ lastDigitStr steps)
  else if steps = 57 then some "E"
  else none

/-- The whole game session: `LudoGame.__init__` plus the `Board`.  The players
dictionary and the board dictionary are association lists in insertion order
(Python `dict` preserves insertion order).  A board key is a token identity
`(owner position, p or q)`. -/
structure Game : Type where
  game_state : String
  players : List (String × PlayerState)
  board : List ((String × Tok) × Option String)
deriving DecidableEq

/-- Dictionary lookup (`self._players[pos]` when present). -/
def pyGet : List (String × PlayerState) → String → Option PlayerState
  | [], _ => none
  | e :: rest, pos => if e.1 = pos then some e.2 else pyGet rest pos

/-- Convenience total accessor for a player known to be in the session. -/
def getP (g : Game) (pos : String) : PlayerState :=
  (pyGet g.players pos).getD (mkPlayer pos)

/-- Dictionary write `self._players[pos] = st`: replace in place when the key
exists, else append. -/
def pySet (ps : List (String × PlayerState)) (pos : String) (st : PlayerState) :
    List (String × PlayerState) :=
  if ps.any (fun e => e.1 = pos) then
    ps.map (fun e => if e.1 = pos then (pos, st) else e)
  else ps ++ [(pos, st)]

/-- Mutation of a player object held in the dictionary. -/
def updatePlayer (g : Game) (pos : String) (f : PlayerState → PlayerState) : Game :=
  { g with players := g.players.map (fun e => if e.1 = pos then (e.1, f e.2) else e) }

/-- Embeds `Board.set_tokens_in_play` over the full player dictionary: every player
contributes its `p` entry then its `q` entry, in player insertion order. -/
def buildBoard : List (String × PlayerState) → List ((String × Tok) × Option String)
  | [] => []
  | e :: rest =>
      ((e.1, Tok.p), get_space_name e.2 e.2.p_steps) ::
      ((e.1, Tok.q), get_space_name e.2 e.2.q_steps) :: buildBoard rest

/-- Embeds `Board.occupied_spaces`: the list of board dictionary values. -/
def occupied_spaces (g : Game) : List (Option String) :=
  g.board.map (fun e => e.2)

/-- Python `list.index`, returning the first index of the value when present
(`x in xs` is `(pyIndex xs x).isSome`). -/
def pyIndex : List (Option String) → Option String → Option Nat
  | [], _ => none
  | x :: rest, v =>
      if x = v then some 0
      else match pyIndex rest v with
        | some i => some (i + 1)
        | none => none

/-- Embeds `LudoGame.get_player_by_position`: the player object, or the sentinel
string `"Player not found!"`. -/
def get_player_by_position (g : Game) (pos : String) : Sum PlayerState String :=
  match pyGet g.players pos with
  | some st => Sum.inl st
  | none => Sum.inr "Player not found!"

/-- Embeds `LudoGame.home_yard_check`. -/
def home_yard_check (st : PlayerState) : Option String :=
  if st.loc_p = "in the home yard" ∧ st.loc_q = "in the home yard" then some "both"
  else if st.loc_p ≠ "in the home yard" ∧ st.loc_q = "in the home yard" then some "q"
  else if st.loc_p = "in the home yard" ∧ st.loc_q ≠ "in the home yard" then some "p"
  else none

/-- Embeds `LudoGame.kick_home`: sends the token at board index `index` of player
`pos` home; a stacked pair is sent home together and unstacked; the board is
rebuilt. -/
def kick_home (g : Game) (pos : String) (index : Nat) : Game :=
  let g1 :=
    if index % 2 = 0 then
      updatePlayer g pos (fun st => { st with p_steps := -1, loc_p := "in the home yard" })
    else
      updatePlayer g pos (fun st => { st with q_steps := -1, loc_q := "in the home yard" })
  let g2 :=
    if (getP g1 pos).p_stacked then
      updatePlayer g1 pos (fun st =>
        { st with p_stacked := false, q_stacked := false,
                  p_steps := -1, q_steps := -1,
                  loc_p := "in the home yard", loc_q := "in the home yard" })
    else g1
  { g2 with board := buildBoard g2.players }

/-- Embeds `LudoGame.occupied_space_check`: if the prospective square of the moving
token is an occupied space, the first token occupying it is looked up and, when
owned by a different player, kicked home. -/
def occupied_space_check (g : Game) (pos : String) (token : Tok) (roll : Int) : Game :=
  let keys := g.board.map (fun e => e.1)
  let st := getP g pos
  let steps := match token with
    | Tok.p => st.p_steps
    | Tok.q => st.q_steps
  let new_space := get_space_name st (steps + roll)
  match pyIndex (occupied_spaces g) new_space with
  | none => g
  | some i =>
      match keys.get? i with
      | none => g
      | some k => if pos ≠ k.1 then kick_home g k.1 i else g

/-- The release-or-advance statements of the `p` branch of
`LudoGame.move_token` (lines 56-71). -/
def advance_phase_p (g : Game) (pos : String) (dice_roll : Int) : Game :=
  if home_yard_check (getP g pos) = some "p" ∨
      home_yard_check (getP g pos) = some "both" then
    updatePlayer g pos (fun st => { st with p_steps := 0, loc_p := "ready to go" })
  else
    let ga := occupied_space_check g pos Tok.p dice_roll
    let new_steps := (getP ga pos).p_steps + dice_roll
    let gb :=
      if new_steps > 57 then
        updatePlayer ga pos (fun st => { st with p_steps := 57 - (new_steps - 57) })
      else
        updatePlayer ga pos (fun st => { st with p_steps := new_steps })
    if (getP gb pos).p_steps ≠ 57 then
      updatePlayer gb pos (fun st => { st with loc_p := "somewhere on the board" })
    else
      updatePlayer gb pos (fun st => { st with loc_p := "has finished" })

/-- The stacked-propagation statements of the `p` branch (lines 72-75). -/
def propagate_phase_p (g1 : Game) (pos : String) : Game :=
  if (getP g1 pos).p_stacked then
    let gc := updatePlayer g1 pos (fun st => { st with q_steps := st.p_steps })
    if (getP gc pos).p_steps = 57 then
      updatePlayer gc pos (fun st => { st with loc_q := "has finished" })
    else gc
  else g1

/-- The `p` branch of `LudoGame.move_token`. -/
def move_token_p (g : Game) (pos : String) (dice_roll : Int) : Game :=
  propagate_phase_p (advance_phase_p g pos dice_roll) pos

/-- The release-or-advance statements of the `q` branch (lines 79-94).  Note
that the overshoot arm writes the reflected value into the `p` step count,
exactly as the source does. -/
def advance_phase_q (g : Game) (pos : String) (dice_roll : Int) : Game :=
  if home_yard_check (getP g pos) = some "q" then
    updatePlayer g pos (fun st => { st with q_steps := 0, loc_q := "ready to go" })
  else
    let ga := occupied_space_check g pos Tok.q dice_roll
    let new_steps := (getP ga pos).q_steps + dice_roll
    let gb :=
      if new_steps > 57 then
        updatePlayer ga pos (fun st => { st with p_steps := 57 - (new_steps - 57) })
      else
        updatePlayer ga pos (fun st => { st with q_steps := new_steps })
    if (getP gb pos).q_steps ≠ 57 then
      updatePlayer gb pos (fun st => { st with loc_q := "somewhere on the board" })
    else
      updatePlayer gb pos (fun st => { st with loc_q := "has finished" })

/-- The stacked-propagation statements of the `q` branch (lines 95-98). -/
def propagate_phase_q (g1 : Game) (pos : String) : Game :=
  if (getP g1 pos).q_stacked then
    let gc := updatePlayer g1 pos (fun st => { st with p_steps := st.q_steps })
    if (getP gc pos).p_steps = 57 then
      updatePlayer gc pos (fun st => { st with loc_p := "has finished" })
    else gc
  else g1

/-- The `q` branch of `LudoGame.move_token`. -/
def move_token_q (g : Game) (pos : String) (dice_roll : Int) : Game :=
  propagate_phase_q (advance_phase_q g pos dice_roll) pos

/-- The final twin-formation statements of `LudoGame.move_token`
(lines 99-100). -/
def stack_phase (g2 : Game) (pos : String) : Game :=
  if ¬ (getP g2 pos).p_stacked ∧ can_token_stack (getP g2 pos) then
    updatePlayer g2 pos (fun st => { st with p_stacked := true, q_stacked := true })
  else g2

/-- Embeds `LudoGame.move_token` lines 53-100.  The early `return` on an already
finished token leaves the game unchanged and skips the final stacking step as
well. -/
def move_token (g : Game) (pos : String) (token : Tok) (dice_roll : Int) : Game :=
  if (pyGet g.players pos).isNone then g else
  if ((match token with
      | Tok.p => (getP g pos).p_steps
      | Tok.q => (getP g pos).q_steps) : Int) = 57 then g
  else
    stack_phase
      (match token with
        | Tok.p => move_token_p g pos dice_roll
        | Tok.q => move_token_q g pos dice_roll) pos

/-- Embeds `LudoGame.furthest_token`. -/
def furthest_token (st : PlayerState) : Tok :=
  if st.p_steps ≤ st.q_steps then Tok.p else Tok.q

/-- Embeds `LudoGame.can_player_attack`: both occupied falls to furthest; otherwise
the first occupant of the one occupied prospective square decides. -/
def can_player_attack (g : Game) (pos : String) (roll : Int) : Tok :=
  let st := getP g pos
  let new_space_p := get_space_name st (st.p_steps + roll)
  let new_space_q := get_space_name st (st.q_steps + roll)
  let occ := occupied_spaces g
  let keys := g.board.map (fun e => e.1)
  if (pyIndex occ new_space_p).isSome ∧ (pyIndex occ new_space_q).isSome then
    furthest_token st
  else if (pyIndex occ new_space_p).isSome then
    match pyIndex occ new_space_p with
    | some i =>
        match keys.get? i with
        | some k => if pos ≠ k.1 then Tok.p else furthest_token st
        | none => furthest_token st
    | none => furthest_token st
  else if (pyIndex occ new_space_q).isSome then
    match pyIndex occ new_space_q with
    | some i =>
        match keys.get? i with
        | some k => if pos ≠ k.1 then Tok.q else furthest_token st
        | none => furthest_token st
    | none => furthest_token st
  else furthest_token st

/-- Embeds `LudoGame.final_stretch_check`. -/
def final_stretch_check (st : PlayerState) : Option String :=
  if (51 ≤ st.p_steps ∧ st.p_steps ≤ 56) ∧ (51 ≤ st.q_steps ∧ st.q_steps ≤ 56) then
    some "both"
  else if 51 ≤ st.p_steps ∧ st.p_steps ≤ 56 then some "p"
  else if 51 ≤ st.q_steps ∧ st.q_steps ≤ 56 then some "q"
  else none

/-- Embeds `LudoGame.can_token_finish`. -/
def can_token_finish (g : Game) (pos : String) (roll : Int) : Tok :=
  let st := getP g pos
  if final_stretch_check st = some "both" then
    if st.p_steps + roll = 57 then Tok.p
    else if st.q_steps + roll = 57 then Tok.q
    else furthest_token st
  else if final_stretch_check st = some "p" then
    if st.p_steps + roll = 57 then Tok.p else Tok.q
  else if final_stretch_check st = some "q" then
    if st.q_steps + roll = 57 then Tok.q else Tok.p
  else can_player_attack g pos roll

/-- Embeds `LudoGame.token_determination`: `none` is Python `None` (no move this
turn). -/
def token_determination (g : Game) (pos : String) (roll : Int) : Option Tok :=
  let st := getP g pos
  if roll = 6 then
    if home_yard_check st = some "both" then some Tok.p
    else if home_yard_check st = some "p" then some Tok.p
    else if home_yard_check st = some "q" then some Tok.q
    else some (can_token_finish g pos roll)
  else
    if home_yard_check st = some "both" then none
    else if home_yard_check st = some "p" then some Tok.q
    else if home_yard_check st = some "q" then some Tok.p
    else some (can_token_finish g pos roll)

/-- Embeds `LudoGame.player_setup`. -/
def player_setup (g : Game) (pos : String) : Game :=
  { g with players := pySet g.players pos (set_start_end (mkPlayer pos)) }

/-- Embeds `LudoGame.__init__`. -/
def initGame : Game :=
  { game_state := "Still Playing", players := [], board := [] }

/-- One iteration of the setup loop of `play_game`: `player_setup` then
`Board.set_tokens_in_play`. -/
def setup_step (g : Game) (pos : String) : Game :=
  let g1 := player_setup g pos
  { g1 with board := buildBoard g1.players }

/-- One iteration of the turn loop of `play_game`: look the seat up, ask the
decision algorithm for a token, move it when there is one, and rebuild the
board.  A turn naming a seat that was never set up makes the Python program
raise (the lookup returns the sentinel string), modelled as `none`. -/
def play_turn (g : Game) (t : String × Int) : Option Game :=
  match pyGet g.players t.1 with
  | none => none
  | some _ =>
      let tokOpt := token_determination g t.1 t.2
      let g1 := match tokOpt with
        | some tk => move_token g t.1 tk t.2
        | none => g
      some { g1 with board := buildBoard g1.players }

/-- Embeds `LudoGame.play_game`.  Returns `none` on the runs the embedding does not
represent: a turn for a seat that was never set up makes the Python program
raise (its lookup returns the sentinel string), and a duplicated seat in the
player list makes the Python board retain stale `Token` keys of the replaced
`Player` object, which an association list keyed by position cannot carry. -/
def play_game (player_list : List String) (turn_list : List (String × Int)) :
    Option (Game × List (Option String)) :=
  if ¬ player_list.Nodup then none else
  let g0 := player_list.foldl setup_step initGame
  match turn_list.foldlM play_turn g0 with
  | none => none
  | some gf =>
      let count_finished :=
        (player_list.filter (fun pos => get_completed (getP gf pos))).length
      let gf2 :=
        if (count_finished : Int) = (player_list.length : Int) - 1 then
          { gf with game_state := "Game Complete" }
        else gf
      some (gf2, occupied_spaces gf2)

/-- Embeds `LudoGame.get_game_state`. -/
def get_game_state (g : Game) : String :=
  g.game_state

/-- Clause-by-clause rendering of the square-name formula as the claim states
it, for a seat identifier with entry offset `off`: home/staged labels, the
outer-ring label `off + c - 1` reduced by 56 when it exceeds 56, the seat
identifier followed by the last digit of `c` for the final stretch, and the
finished label. -/
def claimSquareName (seat : String) (off : Int) (c : Int) : String :=
  if c = -1 then "H"
  else if c = 0 then "R"
  else if 1 ≤ c ∧ c ≤ 50 then
    toString (if off + c - 1 > 56 then off + c - 1 - 56 else off + c - 1)
  else if 51 ≤ c ∧ c ≤ 56 then seat ++ toString (c % 10)
  else "E"

/-- A one-player session used to witness C7. -/
def c7Player : PlayerState :=
  { position := "A", start := some "1", endSpace := some "50",
    loc_p := "has finished", loc_q := "somewhere on the board",
    p_steps := 57, q_steps := 10, p_stacked := false, q_stacked := false }

/-- The game holding `c7Player`. -/
def c7Game : Game :=
  { game_state := "Still Playing", players := [("A", c7Player)],
    board := buildBoard [("A", c7Player)] }

/-- The player state of the C1 failing input: `p` on square 10, `q` on 54. -/
def c1Player : PlayerState :=
  { position := "A", start := some "1", endSpace := some "50",
    loc_p := "somewhere on the board", loc_q := "somewhere on the board",
    p_steps := 10, q_steps := 54, p_stacked := false, q_stacked := false }

/-- The game holding `c1Player`. -/
def c1Game : Game :=
  { game_state := "Still Playing", players := [("A", c1Player)],
    board := buildBoard [("A", c1Player)] }

/-- The first thirteen turns of the C10 run: seat A releases `p` with a 6,
advances it by eleven 5s to counter 55, then finishes it with a 2. -/
def c10FirstLeg : List (String × Int) :=
  [("A", 6)] ++ List.replicate 11 ("A", 5) ++ [("A", 2)]

/-- The full C10 run: after A's leg, seat B does the same; B's final move
lands exactly on 57, whose square is the shared end label `E`. -/
def c10Turns : List (String × Int) :=
  c10FirstLeg ++ [("B", 6)] ++ List.replicate 11 ("B", 5) ++ [("B", 2)]

/-- All of C10's turns but the last: B's `p` stands at 55 and the end square
`E` is occupied, first in board order, by A's finished `p`. -/
def c10AllButLast : List (String × Int) :=
  c10FirstLeg ++ [("B", 6)] ++ List.replicate 11 ("B", 5)

/-- The game state after A's leg of the C10 run. -/
def c10GameAfterFirstLeg : Game :=
  ((play_game ["A", "B"] c10FirstLeg).getD (initGame, [])).1

/-- The game state just before the last turn of the C10 run. -/
def c10GameBeforeLast : Game :=
  ((play_game ["A", "B"] c10AllButLast).getD (initGame, [])).1

/-- The final game state of the C10 run. -/
def c10GameFinal : Game :=
  ((play_game ["A", "B"] c10Turns).getD (initGame, [])).1

/-- Whether square `s` is occupied by some piece of a seat other than `pos`
(the claim's notion of "occupied by an opponent's piece"), read from the
board view. -/
def squareHasOpponentPiece (g : Game) (pos : String) (s : Option String) : Bool :=
  g.board.any (fun e => e.2 == s && e.1.1 != pos)

/-- Seat A of the C2 counterexample: `p` on counter 3, `q` on counter 5. -/
def c2PlayerA : PlayerState :=
  { position := "A", start := some "1", endSpace := some "50",
    loc_p := "somewhere on the board", loc_q := "somewhere on the board",
    p_steps := 3, q_steps := 5, p_stacked := false, q_stacked := false }

/-- Seat B of the C2 counterexample: `p` on counter 49, which is ring square
`7` — exactly A's `q` prospective square for roll 2. -/
def c2PlayerB : PlayerState :=
  { position := "B", start := some "15", endSpace := some "8",
    loc_p := "somewhere on the board", loc_q := "in the home yard",
    p_steps := 49, q_steps := -1, p_stacked := false, q_stacked := false }

/-- The C2 counterexample game. -/
def c2Game : Game :=
  { game_state := "Still Playing", players := [("A", c2PlayerA), ("B", c2PlayerB)],
    board := buildBoard [("A", c2PlayerA), ("B", c2PlayerB)] }

/-- Seat A of the C2 witness game: `p` on 3, `q` on 10. -/
def c2wPlayerA : PlayerState :=
  { position := "A", start := some "1", endSpace := some "50",
    loc_p := "somewhere on the board", loc_q := "somewhere on the board",
    p_steps := 3, q_steps := 10, p_stacked := false, q_stacked := false }

/-- Seat B of the C2 witness game: `p` on counter 47, ring square `5`. -/
def c2wPlayerB : PlayerState :=
  { position := "B", start := some "15", endSpace := some "8",
    loc_p := "somewhere on the board", loc_q := "in the home yard",
    p_steps := 47, q_steps := -1, p_stacked := false, q_stacked := false }

/-- The C2 witness game. -/
def c2wGame : Game :=
  { game_state := "Still Playing", players := [("A", c2wPlayerA), ("B", c2wPlayerB)],
    board := buildBoard [("A", c2wPlayerA), ("B", c2wPlayerB)] }

/-- Seat A of the C3 counterexample: `p` on counter 51 (final stretch, can
finish with a 6), `q` on counter 10. -/
def c3PlayerA : PlayerState :=
  { position := "A", start := some "1", endSpace := some "50",
    loc_p := "somewhere on the board", loc_q := "somewhere on the board",
    p_steps := 51, q_steps := 10, p_stacked := false, q_stacked := false }

/-- Seat B of the C3 counterexample: `p` on counter 2, ring square `16` — A's
`q` prospective square for roll 6. -/
def c3PlayerB : PlayerState :=
  { position := "B", start := some "15", endSpace := some "8",
    loc_p := "somewhere on the board", loc_q := "in the home yard",
    p_steps := 2, q_steps := -1, p_stacked := false, q_stacked := false }

/-- The C3 counterexample game. -/
def c3Game : Game :=
  { game_state := "Still Playing", players := [("A", c3PlayerA), ("B", c3PlayerB)],
    board := buildBoard [("A", c3PlayerA), ("B", c3PlayerB)] }

/-- A player with both pieces at home, witnessing C3. -/
def c3wPlayer : PlayerState := set_start_end (mkPlayer "A")

/-- The C3 witness game. -/
def c3wGame : Game :=
  { game_state := "Still Playing", players := [("A", c3wPlayer)],
    board := buildBoard [("A", c3wPlayer)] }

/-- The release test `move_token` applies to the chosen token before doing any
arithmetic: `p` is released when the home-yard check answers `p` or `both`,
`q` only when it answers `q`. -/
def releaseApplies (st : PlayerState) : Tok → Bool
  | Tok.p => home_yard_check st = some "p" || home_yard_check st = some "both"
  | Tok.q => home_yard_check st = some "q"

/-- Seat A of the C5 counterexample: `p` on counter 52, `q` finished. -/
def c5PlayerA : PlayerState :=
  { position := "A", start := some "1", endSpace := some "50",
    loc_p := "somewhere on the board", loc_q := "has finished",
    p_steps := 52, q_steps := 57, p_stacked := false, q_stacked := false }

/-- Seat B of the C5 counterexample: `p` finished (so it occupies the shared
end square `E`), `q` at home. -/
def c5PlayerB : PlayerState :=
  { position := "B", start := some "15", endSpace := some "8",
    loc_p := "has finished", loc_q := "in the home yard",
    p_steps := 57, q_steps := -1, p_stacked := false, q_stacked := false }

/-- The C5 counterexample game. -/
def c5Game : Game :=
  { game_state := "Still Playing", players := [("A", c5PlayerA), ("B", c5PlayerB)],
    board := buildBoard [("A", c5PlayerA), ("B", c5PlayerB)] }

/-- Seat A of the C5 witness game. -/
def c5wPlayerA : PlayerState :=
  { position := "A", start := some "1", endSpace := some "50",
    loc_p := "somewhere on the board", loc_q := "somewhere on the board",
    p_steps := 16, q_steps := 30, p_stacked := false, q_stacked := false }

/-- Seat B of the C5 witness game: `p` on counter 5, ring square `19` — A's
`p` prospective square for roll 3. -/
def c5wPlayerB : PlayerState :=
  { position := "B", start := some "15", endSpace := some "8",
    loc_p := "somewhere on the board", loc_q := "in the home yard",
    p_steps := 5, q_steps := -1, p_stacked := false, q_stacked := false }

/-- The C5 witness game. -/
def c5wGame : Game :=
  { game_state := "Still Playing", players := [("A", c5wPlayerA), ("B", c5wPlayerB)],
    board := buildBoard [("A", c5wPlayerA), ("B", c5wPlayerB)] }

/-- Derived characterization (proved in `move_token_p_self`): effect of the
release-or-advance phase of the `p` branch on the acting player's record. -/
def moveAdvanceP (st : PlayerState) (roll : Int) : PlayerState :=
  if home_yard_check st = some "p" ∨ home_yard_check st = some "both" then
    { st with p_steps := 0, loc_p := "ready to go" }
  else
    let new_steps := st.p_steps + roll
    let stb :=
      if new_steps > 57 then { st with p_steps := 57 - (new_steps - 57) }
      else { st with p_steps := new_steps }
    if stb.p_steps ≠ 57 then { stb with loc_p := "somewhere on the board" }
    else { stb with loc_p := "has finished" }

/-- Derived characterization: effect of the advance phase of the `q` branch;
the overshoot arm writes `p_steps`, as the source does. -/
def moveAdvanceQ (st : PlayerState) (roll : Int) : PlayerState :=
  if home_yard_check st = some "q" then
    { st with q_steps := 0, loc_q := "ready to go" }
  else
    let new_steps := st.q_steps + roll
    let stb :=
      if new_steps > 57 then { st with p_steps := 57 - (new_steps - 57) }
      else { st with q_steps := new_steps }
    if stb.q_steps ≠ 57 then { stb with loc_q := "somewhere on the board" }
    else { stb with loc_q := "has finished" }

/-- Derived characterization: the stacked-propagation step of the `p` branch. -/
def movePropagateP (st1 : PlayerState) : PlayerState :=
  if st1.p_stacked then
    let stc := { st1 with q_steps := st1.p_steps }
    if stc.p_steps = 57 then { stc with loc_q := "has finished" } else stc
  else st1

/-- Derived characterization: the stacked-propagation step of the `q` branch. -/
def movePropagateQ (st1 : PlayerState) : PlayerState :=
  if st1.q_stacked then
    let stc := { st1 with p_steps := st1.q_steps }
    if stc.p_steps = 57 then { stc with loc_p := "has finished" } else stc
  else st1

/-- Derived characterization: the final twin-formation step of `move_token`. -/
def moveStack (st2 : PlayerState) : PlayerState :=
  if ¬ st2.p_stacked ∧ can_token_stack st2 then
    { st2 with p_stacked := true, q_stacked := true }
  else st2

/-- Derived characterization of `move_token`'s effect on the acting player
when the chosen token is not already finished. -/
def moveSelf (st : PlayerState) (tok : Tok) (roll : Int) : PlayerState :=
  moveStack (match tok with
    | Tok.p => movePropagateP (moveAdvanceP st roll)
    | Tok.q => movePropagateQ (moveAdvanceQ st roll))

/-- A twinned pair on counter 10 witnessing C8. -/
def c8wPlayer : PlayerState :=
  { position := "A", start := some "1", endSpace := some "50",
    loc_p := "somewhere on the board", loc_q := "somewhere on the board",
    p_steps := 10, q_steps := 10, p_stacked := true, q_stacked := true }

/-- The C8 witness game. -/
def c8wGame : Game :=
  { game_state := "Still Playing", players := [("A", c8wPlayer)],
    board := buildBoard [("A", c8wPlayer)] }

/-! ## Basic lemmas about the state containers -/

theorem getP_eq {g : Game} {pos : String} {st : PlayerState}
    (hg : pyGet g.players pos = some st) : getP g pos = st := by
  simp [getP, hg]

theorem pyGet_map_update (ps : List (String × PlayerState)) (pos : String)
    (f : PlayerState → PlayerState) :
    pyGet (ps.map (fun e => if e.1 = pos then (e.1, f e.2) else e)) pos =
      Option.map f (pyGet ps pos) := by
  induction ps with
  | nil => rfl
  | cons e rest ih =>
      by_cases h : e.1 = pos
      · simp [pyGet, h]
      · simp [pyGet, h, ih]

theorem pyGet_map_update_ne (ps : List (String × PlayerState)) (pos pos' : String)
    (f : PlayerState → PlayerState) (h : pos' ≠ pos) :
    pyGet (ps.map (fun e => if e.1 = pos then (e.1, f e.2) else e)) pos' =
      pyGet ps pos' := by
  induction ps with
  | nil => rfl
  | cons e rest ih =>
      by_cases h1 : e.1 = pos
      · simp [pyGet, h1, ih, Ne.symm h]
      · simp [pyGet, h1, ih]

theorem updatePlayer_pyGet_self {g : Game} {pos : String} {st : PlayerState}
    (f : PlayerState → PlayerState) (hg : pyGet g.players pos = some st) :
    pyGet (updatePlayer g pos f).players pos = some (f st) := by
  simp [updatePlayer, pyGet_map_update, hg]

theorem updatePlayer_pyGet_ne {g : Game} {pos pos' : String}
    (f : PlayerState → PlayerState) (h : pos' ≠ pos) :
    pyGet (updatePlayer g pos f).players pos' = pyGet g.players pos' := by
  simp [updatePlayer, pyGet_map_update_ne _ _ _ _ h]

theorem kick_home_pyGet_ne {g : Game} {pos pos' : String} {i : Nat} (h : pos' ≠ pos) :
    pyGet (kick_home g pos i).players pos' = pyGet g.players pos' := by
  simp only [kick_home]
  split <;> split <;> simp [updatePlayer_pyGet_ne _ h]

theorem occupied_space_check_pyGet_self (g : Game) (pos : String) (token : Tok)
    (roll : Int) :
    pyGet (occupied_space_check g pos token roll).players pos = pyGet g.players pos := by
  simp only [occupied_space_check]
  split
  · rfl
  · split
    · rfl
    · rename_i i k hk
      split
      · rename_i hne
        exact kick_home_pyGet_ne (fun hcon => hne (hcon ▸ rfl))
      · rfl

/-! ## Claim C4: square naming -/

/-- C4: for every seat (with the fixed entry offsets 1, 15, 29, 43 for A, B,
C, D) and every counter in the `-1..57` domain, `get_space_name` of a
freshly set-up player produces exactly the square name the claim describes. -/
theorem c4_square_names :
    ∀ so : String × Int, so ∈ [("A", (1 : Int)), ("B", 15), ("C", 29), ("D", 43)] →
    ∀ n : Nat, n ≤ 58 →
      get_space_name (set_start_end (mkPlayer so.1)) ((n : Int) - 1) =
        some (claimSquareName so.1 so.2 ((n : Int) - 1)) := by
  decide

/-- Witness for C4: seat C at counter 51 sits on its private square `C1`. -/
theorem c4_square_names_witness :
    get_space_name (set_start_end (mkPlayer "C")) ((52 : Nat) - 1) =
      some (claimSquareName "C" 29 ((52 : Nat) - 1)) :=
  c4_square_names ("C", 29) (by decide) 52 (by decide)

/-! ## Claim C9: seat lookup failure -/

/-- C9: looking up a seat identifier that is not in the session yields the
distinguished not-found result, never a player object. -/
theorem c9_seat_not_found (g : Game) (pos : String)
    (h : pyGet g.players pos = none) :
    get_player_by_position g pos = Sum.inr "Player not found!" ∧
      ∀ st : PlayerState, get_player_by_position g pos ≠ Sum.inl st := by
  constructor
  · simp [get_player_by_position, h]
  · intro st
    simp [get_player_by_position, h]

/-- Witness for C9: the empty session has no seat `A`. -/
theorem c9_seat_not_found_witness :
    get_player_by_position initGame "A" = Sum.inr "Player not found!" :=
  (c9_seat_not_found initGame "A" (by decide)).1

/-! ## Claim C7: moving a finished token is a no-op -/

/-- C7: calling `move_token` on a token whose step count is already 57 leaves
the whole game state (both tokens of every seat, all flags, the board)
unchanged. -/
theorem c7_finished_noop (g : Game) (pos : String) (tok : Tok) (roll : Int)
    (st : PlayerState) (hg : pyGet g.players pos = some st)
    (h57 : tokSteps st tok = 57) :
    move_token g pos tok roll = g := by
  cases tok
  · have h : st.p_steps = 57 := h57
    simp [move_token, hg, getP_eq hg, h]
  · have h : st.q_steps = 57 := h57
    simp [move_token, hg, getP_eq hg, h]

/-- Witness for C7: moving the finished `p` token of seat A changes nothing. -/
theorem c7_finished_noop_witness : move_token c7Game "A" Tok.p 4 = c7Game :=
  c7_finished_noop c7Game "A" Tok.p 4 c7Player (by decide) (by decide)

/-! ## Claim C1: the overshoot reflection writes the wrong counter for `q` -/

/-- C1 (code bug): moving `q` from 54 with roll 5 overshoots (raw 59) and the
reflected value 55 is written into `p`'s counter while `q` keeps its old
counter 54 — the claim (and the code's own comment that the `q` branch
"functions the same as above") requires `q` to become 55 and `p` to stay 10. -/
theorem c1_q_overshoot_bug :
    c1Player.q_steps + 5 > 57 ∧
      (getP (move_token c1Game "A" Tok.q 5) "A").p_steps = 55 ∧
      (getP (move_token c1Game "A" Tok.q 5) "A").q_steps = 54 := by
  decide

/-! ## Claim C10: a finished opponent token can be kicked home from the end square -/

/-- C10: in a reachable game (seats A and B, the supplied turn list), A's `p`
finishes (counter 57), and when B's `p` later advances from 55 with a roll of
2 — landing exactly on 57, the shared end square `E`, whose first occupant in
the board view is A's finished `p` — that finished token is sent back home:
its counter is reset to `-1` and its location to the home yard. -/
theorem c10_finished_token_kicked :
    (play_game ["A", "B"] c10Turns).isSome = true ∧
    (getP c10GameAfterFirstLeg "A").p_steps = 57 ∧
    (getP c10GameAfterFirstLeg "A").loc_p = "has finished" ∧
    (getP c10GameBeforeLast "B").p_steps = 55 ∧
    pyIndex (occupied_spaces c10GameBeforeLast) (some "E") = some 0 ∧
    c10GameBeforeLast.board.get? 0 = some (("A", Tok.p), some "E") ∧
    (getP c10GameFinal "A").p_steps = -1 ∧
    (getP c10GameFinal "A").loc_p = "in the home yard" ∧
    (getP c10GameFinal "B").p_steps = 57 := by
  decide

/-! ## Claim C2: capture priority -/

/-- C2 counterexample: with roll 2, A's `p` prospective square (ring `5`) is
occupied only by A's own `q`, while A's `q` prospective square (ring `7`) is
occupied by B's piece — so exactly one prospective square is occupied by an
opponent and the claim demands that `q` be selected; the engine selects `p`
(both squares count as occupied, so it falls to furthest-first). -/
theorem c2_counterexample :
    squareHasOpponentPiece c2Game "A"
        (get_space_name (getP c2Game "A") ((getP c2Game "A").p_steps + 2)) = false ∧
    squareHasOpponentPiece c2Game "A"
        (get_space_name (getP c2Game "A") ((getP c2Game "A").q_steps + 2)) = true ∧
    can_player_attack c2Game "A" 2 = Tok.p ∧
    token_determination c2Game "A" 2 = some Tok.p := by
  decide

/-- C2 amended: the engine falls to furthest-first whenever both prospective
squares are occupied by anyone (own pieces included) and whenever neither is
occupied; when exactly one prospective square is occupied, the piece is
selected exactly if the first occupant of that square in board order belongs
to another seat, else the decision again falls to furthest-first. -/
theorem c2_first_occupant_capture (g : Game) (pos : String) (roll : Int) :
    ((pyIndex (occupied_spaces g)
        (get_space_name (getP g pos) ((getP g pos).p_steps + roll))).isSome = true →
      (pyIndex (occupied_spaces g)
        (get_space_name (getP g pos) ((getP g pos).q_steps + roll))).isSome = true →
      can_player_attack g pos roll = furthest_token (getP g pos)) ∧
    ((pyIndex (occupied_spaces g)
        (get_space_name (getP g pos) ((getP g pos).p_steps + roll))).isSome = false →
      (pyIndex (occupied_spaces g)
        (get_space_name (getP g pos) ((getP g pos).q_steps + roll))).isSome = false →
      can_player_attack g pos roll = furthest_token (getP g pos)) ∧
    (∀ i : Nat, ∀ opos : String, ∀ otok : Tok, ∀ s : Option String,
      pyIndex (occupied_spaces g)
          (get_space_name (getP g pos) ((getP g pos).p_steps + roll)) = some i →
      (pyIndex (occupied_spaces g)
          (get_space_name (getP g pos) ((getP g pos).q_steps + roll))).isSome = false →
      g.board.get? i = some ((opos, otok), s) →
      can_player_attack g pos roll =
        if pos ≠ opos then Tok.p else furthest_token (getP g pos)) ∧
    (∀ i : Nat, ∀ opos : String, ∀ otok : Tok, ∀ s : Option String,
      (pyIndex (occupied_spaces g)
          (get_space_name (getP g pos) ((getP g pos).p_steps + roll))).isSome = false →
      pyIndex (occupied_spaces g)
          (get_space_name (getP g pos) ((getP g pos).q_steps + roll)) = some i →
      g.board.get? i = some ((opos, otok), s) →
      can_player_attack g pos roll =
        if pos ≠ opos then Tok.q else furthest_token (getP g pos)) := by
  refine ⟨?_, ?_, ?_, ?_⟩
  · intro h1 h2
    simp [can_player_attack, h1, h2]
  · intro h1 h2
    simp [can_player_attack, h1, h2]
  · intro i opos otok s h1 h2 hk
    have hk2 : g.board[i]? = some ((opos, otok), s) := by
      simpa using hk
    simp [can_player_attack, h1, h2, hk2]
  · intro i opos otok s h1 h2 hk
    have hk2 : g.board[i]? = some ((opos, otok), s) := by
      simpa using hk
    simp [can_player_attack, h1, h2, hk2]

/-- Witness for the amended C2: only A's `p` prospective square (ring `5`) is
occupied, its first occupant is B's piece, and the engine selects `p`. -/
theorem c2_first_occupant_capture_witness : can_player_attack c2wGame "A" 2 = Tok.p := by
  have h := (c2_first_occupant_capture c2wGame "A" 2).2.2.1 2 "B" Tok.p (some "5")
    (by decide) (by decide) (by decide)
  simpa using h

/-! ## Claim C3: release priority and its fall-through -/

/-- C3 counterexample: seat A rolls a 6 with neither piece at home.  The claim
says the decision falls through to rule 3 (capture priority), which here would
select `q` (its prospective square is occupied by B); the engine instead falls
through to the finish rule and selects `p`, which can reach 57 exactly. -/
theorem c3_counterexample :
    (getP c3Game "A").loc_p ≠ "in the home yard" ∧
    (getP c3Game "A").loc_q ≠ "in the home yard" ∧
    can_player_attack c3Game "A" 6 = Tok.q ∧
    token_determination c3Game "A" 6 = some Tok.p := by
  decide

/-- C3 amended: with roll 6 an at-home piece is released (`p` preferred);
with roll 6 and neither piece at home the decision falls through to rule 2
(finish priority, `can_token_finish`); with any other roll, exactly one piece
at home selects the other piece, both at home selects nothing, and neither at
home again falls through to the finish rule. -/
theorem c3_release_priority (g : Game) (pos : String) (roll : Int)
    (st : PlayerState) (hg : pyGet g.players pos = some st) :
    (roll = 6 → (st.loc_p = "in the home yard" ∨ st.loc_q = "in the home yard") →
      token_determination g pos roll =
        some (if st.loc_p = "in the home yard" then Tok.p else Tok.q)) ∧
    (roll = 6 → st.loc_p ≠ "in the home yard" → st.loc_q ≠ "in the home yard" →
      token_determination g pos roll = some (can_token_finish g pos roll)) ∧
    (roll ≠ 6 → st.loc_p = "in the home yard" → st.loc_q ≠ "in the home yard" →
      token_determination g pos roll = some Tok.q) ∧
    (roll ≠ 6 → st.loc_p ≠ "in the home yard" → st.loc_q = "in the home yard" →
      token_determination g pos roll = some Tok.p) ∧
    (roll ≠ 6 → st.loc_p = "in the home yard" → st.loc_q = "in the home yard" →
      token_determination g pos roll = none) ∧
    (roll ≠ 6 → st.loc_p ≠ "in the home yard" → st.loc_q ≠ "in the home yard" →
      token_determination g pos roll = some (can_token_finish g pos roll)) := by
  refine ⟨?_, ?_, ?_, ?_, ?_, ?_⟩
  · intro h6 hor
    rcases hor with hp | hq
    · by_cases hq : st.loc_q = "in the home yard" <;>
        simp [token_determination, home_yard_check, getP_eq hg, h6, hp, hq]
    · by_cases hp : st.loc_p = "in the home yard" <;>
        simp [token_determination, home_yard_check, getP_eq hg, h6, hp, hq]
  · intro h6 hp hq
    simp [token_determination, home_yard_check, getP_eq hg, h6, hp, hq]
  · intro h6 hp hq
    simp [token_determination, home_yard_check, getP_eq hg, h6, hp, hq]
  · intro h6 hp hq
    simp [token_determination, home_yard_check, getP_eq hg, h6, hp, hq]
  · intro h6 hp hq
    simp [token_determination, home_yard_check, getP_eq hg, h6, hp, hq]
  · intro h6 hp hq
    simp [token_determination, home_yard_check, getP_eq hg, h6, hp, hq]

/-- Witness for the amended C3: both pieces at home and a roll of 6 releases
`p`. -/
theorem c3_release_priority_witness : token_determination c3wGame "A" 6 = some Tok.p := by
  have h := (c3_release_priority c3wGame "A" 6 c3wPlayer (by decide)).1 rfl
    (Or.inl (by decide))
  simpa using h

/-! ## Claim C5: capture on landing -/

theorem buildBoard_get?_parity (ps : List (String × PlayerState)) :
    ∀ i : Nat, ∀ opos : String, ∀ otok : Tok, ∀ s : Option String,
      (buildBoard ps).get? i = some ((opos, otok), s) → (i % 2 = 0 ↔ otok = Tok.p) := by
  induction ps with
  | nil =>
      intro i opos otok s h
      simp [buildBoard] at h
  | cons e rest ih =>
      intro i opos otok s h
      match i with
      | 0 =>
          simp [buildBoard] at h
          rw [← h.1.2]
          decide
      | 1 =>
          simp [buildBoard] at h
          rw [← h.1.2]
          decide
      | Nat.succ (Nat.succ n) =>
          have h2 : (buildBoard rest).get? n = some ((opos, otok), s) := by
            simpa [buildBoard] using h
          have h3 := ih n opos otok s h2
          have hm : (n + 1 + 1) % 2 = n % 2 := by omega
          rw [hm]
          exact h3

theorem buildBoard_get?_pyGet (ps : List (String × PlayerState)) :
    ∀ i : Nat, ∀ opos : String, ∀ otok : Tok, ∀ s : Option String,
      (buildBoard ps).get? i = some ((opos, otok), s) →
        ∃ st0 : PlayerState, pyGet ps opos = some st0 := by
  induction ps with
  | nil =>
      intro i opos otok s h
      simp [buildBoard] at h
  | cons e rest ih =>
      intro i opos otok s h
      match i with
      | 0 =>
          simp [buildBoard] at h
          exact ⟨e.2, by simp [pyGet, h.1.1]⟩
      | 1 =>
          simp [buildBoard] at h
          exact ⟨e.2, by simp [pyGet, h.1.1]⟩
      | Nat.succ (Nat.succ n) =>
          have h2 : (buildBoard rest).get? n = some ((opos, otok), s) := by
            simpa [buildBoard] using h
          obtain ⟨st0, hst0⟩ := ih n opos otok s h2
          by_cases he : e.1 = opos
          · exact ⟨e.2, by simp [pyGet, he]⟩
          · exact ⟨st0, by simp [pyGet, he, hst0]⟩

theorem kick_home_effect (g : Game) (pos : String) (i : Nat) (ost0 : PlayerState)
    (hg : pyGet g.players pos = some ost0) :
    pyGet (kick_home g pos i).players pos = some (
      if ost0.p_stacked then
        { ost0 with p_stacked := false, q_stacked := false, p_steps := -1, q_steps := -1,
                    loc_p := "in the home yard", loc_q := "in the home yard" }
      else if i % 2 = 0 then { ost0 with p_steps := -1, loc_p := "in the home yard" }
      else { ost0 with q_steps := -1, loc_q := "in the home yard" }) := by
  by_cases hpar : i % 2 = 0 <;>
    by_cases hst : ost0.p_stacked <;>
      simp [kick_home, hpar, hst, getP, updatePlayer_pyGet_self _ hg,
        updatePlayer_pyGet_self _ (updatePlayer_pyGet_self _ hg)]

theorem occupied_space_check_kicks (g : Game) (pos : String) (tok : Tok) (roll : Int)
    (st : PlayerState) (i : Nat) (opos : String) (otok : Tok) (s : Option String)
    (hg : pyGet g.players pos = some st)
    (hidx : pyIndex (occupied_spaces g)
      (get_space_name st (tokSteps st tok + roll)) = some i)
    (hkey : g.board.get? i = some ((opos, otok), s))
    (hne : pos ≠ opos) :
    occupied_space_check g pos tok roll = kick_home g opos i := by
  have hk2 : g.board[i]? = some ((opos, otok), s) := by simpa using hkey
  cases tok
  · have hidx2 : pyIndex (occupied_spaces g)
        (get_space_name st (st.p_steps + roll)) = some i := hidx
    simp [occupied_space_check, getP_eq hg, hidx2, hk2, hne]
  · have hidx2 : pyIndex (occupied_spaces g)
        (get_space_name st (st.q_steps + roll)) = some i := hidx
    simp [occupied_space_check, getP_eq hg, hidx2, hk2, hne]

theorem propagate_phase_p_pyGet_ne (g1 : Game) (pos pos' : String)
    (hne : pos' ≠ pos) :
    pyGet (propagate_phase_p g1 pos).players pos' = pyGet g1.players pos' := by
  simp only [propagate_phase_p]
  split_ifs <;> simp only [updatePlayer_pyGet_ne _ hne]

theorem propagate_phase_q_pyGet_ne (g1 : Game) (pos pos' : String)
    (hne : pos' ≠ pos) :
    pyGet (propagate_phase_q g1 pos).players pos' = pyGet g1.players pos' := by
  simp only [propagate_phase_q]
  split_ifs <;> simp only [updatePlayer_pyGet_ne _ hne]

theorem stack_phase_pyGet_ne (g2 : Game) (pos pos' : String) (hne : pos' ≠ pos) :
    pyGet (stack_phase g2 pos).players pos' = pyGet g2.players pos' := by
  simp only [stack_phase]
  split_ifs <;> simp only [updatePlayer_pyGet_ne _ hne]

theorem move_token_p_pyGet_other (g : Game) (pos pos' : String) (roll : Int)
    (st : PlayerState) (hne : pos' ≠ pos)
    (hg : pyGet g.players pos = some st)
    (hr : ¬ (home_yard_check st = some "p" ∨ home_yard_check st = some "both")) :
    pyGet (move_token_p g pos roll).players pos' =
      pyGet (occupied_space_check g pos Tok.p roll).players pos' := by
  rw [move_token_p, propagate_phase_p_pyGet_ne _ _ _ hne]
  simp only [advance_phase_p, getP_eq hg]
  rw [if_neg hr]
  split_ifs <;>
    simp only [updatePlayer_pyGet_ne _ hne, occupied_space_check_pyGet_self]

theorem move_token_q_pyGet_other (g : Game) (pos pos' : String) (roll : Int)
    (st : PlayerState) (hne : pos' ≠ pos)
    (hg : pyGet g.players pos = some st)
    (hr : ¬ home_yard_check st = some "q") :
    pyGet (move_token_q g pos roll).players pos' =
      pyGet (occupied_space_check g pos Tok.q roll).players pos' := by
  rw [move_token_q, propagate_phase_q_pyGet_ne _ _ _ hne]
  simp only [advance_phase_q, getP_eq hg]
  rw [if_neg hr]
  split_ifs <;>
    simp only [updatePlayer_pyGet_ne _ hne, occupied_space_check_pyGet_self]

theorem move_token_pyGet_other (g : Game) (pos pos' : String) (tok : Tok) (roll : Int)
    (st : PlayerState) (hne : pos' ≠ pos)
    (hg : pyGet g.players pos = some st)
    (h57 : tokSteps st tok ≠ 57)
    (hrel : releaseApplies st tok = false) :
    pyGet (move_token g pos tok roll).players pos' =
      pyGet (occupied_space_check g pos tok roll).players pos' := by
  cases tok
  · have h57p : ¬ st.p_steps = 57 := h57
    have hr : ¬ (home_yard_check st = some "p" ∨ home_yard_check st = some "both") := by
      simpa [releaseApplies] using hrel
    have hmp := move_token_p_pyGet_other g pos pos' roll st hne hg hr
    simp only [move_token, hg, getP_eq hg, Option.isNone_some, Bool.false_eq_true,
      if_false]
    rw [if_neg h57p, stack_phase_pyGet_ne _ _ _ hne]
    exact hmp
  · have h57q : ¬ st.q_steps = 57 := h57
    have hr : ¬ home_yard_check st = some "q" := by
      simpa [releaseApplies] using hrel
    have hmq := move_token_q_pyGet_other g pos pos' roll st hne hg hr
    simp only [move_token, hg, getP_eq hg, Option.isNone_some, Bool.false_eq_true,
      if_false]
    rw [if_neg h57q, stack_phase_pyGet_ne _ _ _ hne]
    exact hmq

/-- C5 counterexample: A's `p` advances from 52 with roll 5 onto the end
square `E`, which is occupied by B's piece (a different seat), yet after the
move B's piece is untouched — the engine consulted only the first occupant of
`E` in board order, which is A's own finished `q`. -/
theorem c5_counterexample :
    get_space_name (getP c5Game "A") ((getP c5Game "A").p_steps + 5) = some "E" ∧
    squareHasOpponentPiece c5Game "A" (some "E") = true ∧
    (getP (move_token c5Game "A" Tok.p 5) "A").p_steps = 57 ∧
    (getP (move_token c5Game "A" Tok.p 5) "B").p_steps = 57 ∧
    (getP (move_token c5Game "A" Tok.p 5) "B").loc_p = "has finished" := by
  decide

/-- C5 amended: when the moving token actually advances (not a release, not
already finished) and the first occupant in board order of its raw prospective
square `counter + roll` belongs to a different seat, that occupant token is
sent home — counter `-1`, location the home yard — and if that seat's pieces
were twinned, both of its tokens are sent home with both twinned flags
cleared. -/
theorem c5_first_occupant_sent_home (g : Game) (pos : String) (tok : Tok) (roll : Int)
    (st ost0 : PlayerState) (i : Nat) (opos : String) (otok : Tok) (s : Option String)
    (hwf : g.board = buildBoard g.players)
    (hg : pyGet g.players pos = some st)
    (hopp : pyGet g.players opos = some ost0)
    (h57 : tokSteps st tok ≠ 57)
    (hrel : releaseApplies st tok = false)
    (hidx : pyIndex (occupied_spaces g)
      (get_space_name st (tokSteps st tok + roll)) = some i)
    (hkey : g.board.get? i = some ((opos, otok), s))
    (hne : pos ≠ opos) :
    tokSteps (getP (move_token g pos tok roll) opos) otok = -1 ∧
    tokLoc (getP (move_token g pos tok roll) opos) otok = "in the home yard" ∧
    (ost0.p_stacked = true →
      getP (move_token g pos tok roll) opos =
        { ost0 with p_stacked := false, q_stacked := false, p_steps := -1, q_steps := -1,
                    loc_p := "in the home yard", loc_q := "in the home yard" }) := by
  have hmv : pyGet (move_token g pos tok roll).players opos =
      pyGet (occupied_space_check g pos tok roll).players opos :=
    move_token_pyGet_other g pos opos tok roll st (Ne.symm hne) hg h57 hrel
  have hosc : occupied_space_check g pos tok roll = kick_home g opos i :=
    occupied_space_check_kicks g pos tok roll st i opos otok s hg hidx hkey hne
  rw [hosc] at hmv
  have hkick := kick_home_effect g opos i ost0 hopp
  rw [hkick] at hmv
  have hfin : getP (move_token g pos tok roll) opos =
      (if ost0.p_stacked then
        { ost0 with p_stacked := false, q_stacked := false, p_steps := -1, q_steps := -1,
                    loc_p := "in the home yard", loc_q := "in the home yard" }
      else if i % 2 = 0 then { ost0 with p_steps := -1, loc_p := "in the home yard" }
      else { ost0 with q_steps := -1, loc_q := "in the home yard" }) := by
    simp [getP, hmv]
  have hpar : i % 2 = 0 ↔ otok = Tok.p :=
    buildBoard_get?_parity g.players i opos otok s (by rw [← hwf]; exact hkey)
  refine ⟨?_, ?_, ?_⟩
  · rw [hfin]
    by_cases hst : ost0.p_stacked
    · cases otok <;> simp [hst, tokSteps]
    · cases otok
      · have hp : i % 2 = 0 := hpar.mpr rfl
        simp [hst, hp, tokSteps]
      · have hq : ¬ i % 2 = 0 := by
          intro hcon
          exact Tok.noConfusion (hpar.mp hcon)
        simp [hst, hq, tokSteps]
  · rw [hfin]
    by_cases hst : ost0.p_stacked
    · cases otok <;> simp [hst, tokLoc]
    · cases otok
      · have hp : i % 2 = 0 := hpar.mpr rfl
        simp [hst, hp, tokLoc]
      · have hq : ¬ i % 2 = 0 := by
          intro hcon
          exact Tok.noConfusion (hpar.mp hcon)
        simp [hst, hq, tokLoc]
  · intro hst
    rw [hfin]
    simp [hst]

/-- Witness for the amended C5: A's `p` moves from 16 by 3 onto ring square
`19`, whose first occupant is B's `p`; B's `p` is sent home. -/
theorem c5_first_occupant_sent_home_witness :
    tokSteps (getP (move_token c5wGame "A" Tok.p 3) "B") Tok.p = -1 ∧
    tokLoc (getP (move_token c5wGame "A" Tok.p 3) "B") Tok.p = "in the home yard" := by
  have h := c5_first_occupant_sent_home c5wGame "A" Tok.p 3 c5wPlayerA c5wPlayerB
    2 "B" Tok.p (some "19") (by decide) (by decide) (by decide) (by decide)
    (by decide) (by decide) (by decide) (by decide)
  exact ⟨h.1, h.2.1⟩

/-! ## Claim C8: twin propagation and twin formation -/

theorem getP_occupied_space_check_self (g : Game) (pos : String) (tok : Tok)
    (roll : Int) : getP (occupied_space_check g pos tok roll) pos = getP g pos := by
  simp [getP, occupied_space_check_pyGet_self]

theorem advance_phase_p_self (g : Game) (pos : String) (roll : Int)
    (st : PlayerState) (hg : pyGet g.players pos = some st) :
    pyGet (advance_phase_p g pos roll).players pos = some (moveAdvanceP st roll) := by
  have hosc : pyGet (occupied_space_check g pos Tok.p roll).players pos =
      some st := by rw [occupied_space_check_pyGet_self]; exact hg
  by_cases hrel : home_yard_check st = some "p" ∨ home_yard_check st = some "both"
  · simp only [advance_phase_p, moveAdvanceP, getP_eq hg, if_pos hrel]
    exact updatePlayer_pyGet_self _ hg
  · simp only [advance_phase_p, moveAdvanceP, getP_eq hg, if_neg hrel,
      getP_occupied_space_check_self]
    by_cases hovr : st.p_steps + roll > 57
    · have hb := updatePlayer_pyGet_self
        (fun s => { s with p_steps := 57 - (st.p_steps + roll - 57) }) hosc
      simp only [if_pos hovr, getP, hb, Option.getD_some]
      split_ifs <;> exact updatePlayer_pyGet_self _ hb
    · have hb := updatePlayer_pyGet_self
        (fun s => { s with p_steps := st.p_steps + roll }) hosc
      simp only [if_neg hovr, getP, hb, Option.getD_some]
      split_ifs <;> exact updatePlayer_pyGet_self _ hb

theorem advance_phase_q_self (g : Game) (pos : String) (roll : Int)
    (st : PlayerState) (hg : pyGet g.players pos = some st) :
    pyGet (advance_phase_q g pos roll).players pos = some (moveAdvanceQ st roll) := by
  have hosc : pyGet (occupied_space_check g pos Tok.q roll).players pos =
      some st := by rw [occupied_space_check_pyGet_self]; exact hg
  by_cases hrel : home_yard_check st = some "q"
  · simp only [advance_phase_q, moveAdvanceQ, getP_eq hg, if_pos hrel]
    exact updatePlayer_pyGet_self _ hg
  · simp only [advance_phase_q, moveAdvanceQ, getP_eq hg, if_neg hrel,
      getP_occupied_space_check_self]
    by_cases hovr : st.q_steps + roll > 57
    · have hb := updatePlayer_pyGet_self
        (fun s => { s with p_steps := 57 - (st.q_steps + roll - 57) }) hosc
      simp only [if_pos hovr, getP, hb, Option.getD_some]
      split_ifs <;> exact updatePlayer_pyGet_self _ hb
    · have hb := updatePlayer_pyGet_self
        (fun s => { s with q_steps := st.q_steps + roll }) hosc
      simp only [if_neg hovr, getP, hb, Option.getD_some]
      split_ifs <;> exact updatePlayer_pyGet_self _ hb

theorem propagate_phase_p_self (g1 : Game) (pos : String) (st1 : PlayerState)
    (hg1 : pyGet g1.players pos = some st1) :
    pyGet (propagate_phase_p g1 pos).players pos = some (movePropagateP st1) := by
  by_cases hstk : st1.p_stacked
  · have hc := updatePlayer_pyGet_self (fun s => { s with q_steps := s.p_steps }) hg1
    have hgc : getP (updatePlayer g1 pos (fun s => { s with q_steps := s.p_steps })) pos =
        { st1 with q_steps := st1.p_steps } := getP_eq hc
    simp only [propagate_phase_p, movePropagateP, getP_eq hg1, if_pos hstk, hgc]
    split_ifs
    · exact updatePlayer_pyGet_self _ hc
    · exact hc
  · simp only [propagate_phase_p, movePropagateP, getP_eq hg1, if_neg hstk]
    exact hg1

theorem propagate_phase_q_self (g1 : Game) (pos : String) (st1 : PlayerState)
    (hg1 : pyGet g1.players pos = some st1) :
    pyGet (propagate_phase_q g1 pos).players pos = some (movePropagateQ st1) := by
  by_cases hstk : st1.q_stacked
  · have hc := updatePlayer_pyGet_self (fun s => { s with p_steps := s.q_steps }) hg1
    have hgc : getP (updatePlayer g1 pos (fun s => { s with p_steps := s.q_steps })) pos =
        { st1 with p_steps := st1.q_steps } := getP_eq hc
    simp only [propagate_phase_q, movePropagateQ, getP_eq hg1, if_pos hstk, hgc]
    split_ifs
    · exact updatePlayer_pyGet_self _ hc
    · exact hc
  · simp only [propagate_phase_q, movePropagateQ, getP_eq hg1, if_neg hstk]
    exact hg1

theorem stack_phase_self (g2 : Game) (pos : String) (st2 : PlayerState)
    (hg2 : pyGet g2.players pos = some st2) :
    pyGet (stack_phase g2 pos).players pos = some (moveStack st2) := by
  simp only [stack_phase, moveStack, getP_eq hg2]
  split_ifs
  · exact updatePlayer_pyGet_self _ hg2
  · exact hg2

theorem move_token_self (g : Game) (pos : String) (tok : Tok) (roll : Int)
    (st : PlayerState) (hg : pyGet g.players pos = some st)
    (h57 : tokSteps st tok ≠ 57) :
    pyGet (move_token g pos tok roll).players pos = some (moveSelf st tok roll) := by
  cases tok
  · have h57p : ¬ st.p_steps = 57 := h57
    have ha := advance_phase_p_self g pos roll st hg
    have hp := propagate_phase_p_self _ pos _ ha
    rw [← move_token_p] at hp
    simp only [move_token, hg, getP_eq hg, Option.isNone_some, Bool.false_eq_true,
      if_false]
    rw [if_neg h57p]
    exact stack_phase_self _ pos _ hp
  · have h57q : ¬ st.q_steps = 57 := h57
    have ha := advance_phase_q_self g pos roll st hg
    have hq := propagate_phase_q_self _ pos _ ha
    rw [← move_token_q] at hq
    simp only [move_token, hg, getP_eq hg, Option.isNone_some, Bool.false_eq_true,
      if_false]
    rw [if_neg h57q]
    exact stack_phase_self _ pos _ hq

theorem moveAdvanceP_p_stacked (st : PlayerState) (roll : Int) :
    (moveAdvanceP st roll).p_stacked = st.p_stacked := by
  simp only [moveAdvanceP]
  split_ifs <;> rfl

theorem moveAdvanceQ_q_stacked (st : PlayerState) (roll : Int) :
    (moveAdvanceQ st roll).q_stacked = st.q_stacked := by
  simp only [moveAdvanceQ]
  split_ifs <;> rfl

theorem moveAdvanceP_flags (st : PlayerState) (roll : Int) :
    (moveAdvanceP st roll).p_stacked = st.p_stacked ∧
      (moveAdvanceP st roll).q_stacked = st.q_stacked := by
  simp only [moveAdvanceP]
  split_ifs <;> exact ⟨rfl, rfl⟩

theorem moveAdvanceQ_flags (st : PlayerState) (roll : Int) :
    (moveAdvanceQ st roll).p_stacked = st.p_stacked ∧
      (moveAdvanceQ st roll).q_stacked = st.q_stacked := by
  simp only [moveAdvanceQ]
  split_ifs <;> exact ⟨rfl, rfl⟩

theorem movePropagateP_flags (st1 : PlayerState) :
    (movePropagateP st1).p_stacked = st1.p_stacked ∧
      (movePropagateP st1).q_stacked = st1.q_stacked := by
  simp only [movePropagateP]
  split_ifs <;> exact ⟨rfl, rfl⟩

theorem movePropagateQ_flags (st1 : PlayerState) :
    (movePropagateQ st1).p_stacked = st1.p_stacked ∧
      (movePropagateQ st1).q_stacked = st1.q_stacked := by
  simp only [movePropagateQ]
  split_ifs <;> exact ⟨rfl, rfl⟩

theorem moveStack_fields (st2 : PlayerState) :
    (moveStack st2).p_steps = st2.p_steps ∧ (moveStack st2).q_steps = st2.q_steps ∧
      (moveStack st2).loc_p = st2.loc_p ∧ (moveStack st2).loc_q = st2.loc_q := by
  simp only [moveStack]
  split_ifs <;> exact ⟨rfl, rfl, rfl, rfl⟩

theorem movePropagateP_lockstep (st1 : PlayerState) (h : st1.p_stacked = true) :
    (movePropagateP st1).q_steps = (movePropagateP st1).p_steps ∧
      ((movePropagateP st1).p_steps = 57 →
        (movePropagateP st1).loc_q = "has finished") := by
  simp only [movePropagateP, h, if_true]
  split_ifs with h57
  · exact ⟨rfl, fun _ => rfl⟩
  · exact ⟨rfl, fun hcon => absurd hcon h57⟩

theorem movePropagateQ_lockstep (st1 : PlayerState) (h : st1.q_stacked = true) :
    (movePropagateQ st1).p_steps = (movePropagateQ st1).q_steps ∧
      ((movePropagateQ st1).q_steps = 57 →
        (movePropagateQ st1).loc_p = "has finished") := by
  simp only [movePropagateQ, h, if_true]
  split_ifs with h57
  · exact ⟨rfl, fun _ => rfl⟩
  · refine ⟨rfl, fun hcon => absurd ?_ h57⟩
    exact hcon

/-- C8: for every actual move (the chosen token not already finished): if the
moved token is twinned (stacked) with its sibling, then after `move_token` the
sibling's counter equals the moved token's counter, and the sibling's location
is the finished tag whenever that counter is 57; and if the two tokens were
not twinned but after the move hold the same counter strictly between 0 and
57, both twinned flags become true. -/
theorem c8_twin_propagation_formation (g : Game) (pos : String) (tok : Tok)
    (roll : Int) (st : PlayerState) (hg : pyGet g.players pos = some st)
    (h57 : tokSteps st tok ≠ 57) :
    (tokStacked st tok = true →
      tokSteps (getP (move_token g pos tok roll) pos) (sibling tok) =
        tokSteps (getP (move_token g pos tok roll) pos) tok ∧
      (tokSteps (getP (move_token g pos tok roll) pos) tok = 57 →
        tokLoc (getP (move_token g pos tok roll) pos) (sibling tok) = "has finished")) ∧
    (st.p_stacked = false → st.q_stacked = false →
      (getP (move_token g pos tok roll) pos).p_steps =
        (getP (move_token g pos tok roll) pos).q_steps →
      0 < (getP (move_token g pos tok roll) pos).p_steps →
      (getP (move_token g pos tok roll) pos).p_steps < 57 →
      (getP (move_token g pos tok roll) pos).p_stacked = true ∧
      (getP (move_token g pos tok roll) pos).q_stacked = true) := by
  have hself : getP (move_token g pos tok roll) pos = moveSelf st tok roll :=
    getP_eq (move_token_self g pos tok roll st hg h57)
  rw [hself]
  constructor
  · intro hstk
    cases tok
    · have h1 : (moveAdvanceP st roll).p_stacked = true := by
        rw [moveAdvanceP_p_stacked]; exact hstk
      have h2 := movePropagateP_lockstep (moveAdvanceP st roll) h1
      obtain ⟨ms1, ms2, ms3, ms4⟩ :=
        moveStack_fields (movePropagateP (moveAdvanceP st roll))
      simp only [moveSelf, tokSteps, tokLoc, sibling]
      refine ⟨?_, ?_⟩
      · rw [ms1, ms2]; exact h2.1
      · intro hx
        rw [ms4]
        exact h2.2 (by rw [ms1] at hx; exact hx)
    · have h1 : (moveAdvanceQ st roll).q_stacked = true := by
        rw [moveAdvanceQ_q_stacked]; exact hstk
      have h2 := movePropagateQ_lockstep (moveAdvanceQ st roll) h1
      obtain ⟨ms1, ms2, ms3, ms4⟩ :=
        moveStack_fields (movePropagateQ (moveAdvanceQ st roll))
      simp only [moveSelf, tokSteps, tokLoc, sibling]
      refine ⟨?_, ?_⟩
      · rw [ms1, ms2]; exact h2.1
      · intro hx
        rw [ms3]
        exact h2.2 (by rw [ms2] at hx; exact hx)
  · intro hp0 hq0 heq hpos hlt
    cases tok
    · have hf : (movePropagateP (moveAdvanceP st roll)).p_stacked = false := by
        rw [(movePropagateP_flags _).1, (moveAdvanceP_flags st roll).1]; exact hp0
      simp only [moveSelf] at heq hpos hlt ⊢
      by_cases hcs : can_token_stack (movePropagateP (moveAdvanceP st roll)) = true
      · have hms : moveStack (movePropagateP (moveAdvanceP st roll)) =
            { movePropagateP (moveAdvanceP st roll) with
              p_stacked := true, q_stacked := true } := by
          simp [moveStack, hf, hcs]
        rw [hms]
        exact ⟨rfl, rfl⟩
      · have hms : moveStack (movePropagateP (moveAdvanceP st roll)) =
            movePropagateP (moveAdvanceP st roll) := by
          simp [moveStack, hcs]
        rw [hms] at heq hpos hlt
        exfalso
        apply hcs
        simp only [can_token_stack, heq, hpos, hlt]
        simp [← heq, hpos, hlt]
    · have hf : (movePropagateQ (moveAdvanceQ st roll)).p_stacked = false := by
        rw [(movePropagateQ_flags _).1, (moveAdvanceQ_flags st roll).1]; exact hp0
      simp only [moveSelf] at heq hpos hlt ⊢
      by_cases hcs : can_token_stack (movePropagateQ (moveAdvanceQ st roll)) = true
      · have hms : moveStack (movePropagateQ (moveAdvanceQ st roll)) =
            { movePropagateQ (moveAdvanceQ st roll) with
              p_stacked := true, q_stacked := true } := by
          simp [moveStack, hf, hcs]
        rw [hms]
        exact ⟨rfl, rfl⟩
      · have hms : moveStack (movePropagateQ (moveAdvanceQ st roll)) =
            movePropagateQ (moveAdvanceQ st roll) := by
          simp [moveStack, hcs]
        rw [hms] at heq hpos hlt
        exfalso
        apply hcs
        simp only [can_token_stack, heq, hpos, hlt]
        simp [← heq, hpos, hlt]

/-- Witness for C8: the twinned sibling `q` is dragged to `p`'s new counter. -/
theorem c8_twin_propagation_formation_witness :
    tokSteps (getP (move_token c8wGame "A" Tok.p 4) "A") (sibling Tok.p) =
      tokSteps (getP (move_token c8wGame "A" Tok.p 4) "A") Tok.p :=
  ((c8_twin_propagation_formation c8wGame "A" Tok.p 4 c8wPlayer
    (by decide) (by decide)).1 (by decide)).1

/-! ## Claim C6: completion bookkeeping -/

theorem updatePlayer_game_state (g : Game) (pos : String)
    (f : PlayerState → PlayerState) :
    (updatePlayer g pos f).game_state = g.game_state := rfl

theorem kick_home_game_state (g : Game) (pos : String) (i : Nat) :
    (kick_home g pos i).game_state = g.game_state := by
  simp only [kick_home]
  split_ifs <;> rfl

theorem occupied_space_check_game_state (g : Game) (pos : String) (tok : Tok)
    (roll : Int) :
    (occupied_space_check g pos tok roll).game_state = g.game_state := by
  simp only [occupied_space_check]
  split
  · rfl
  · split
    · rfl
    · split
      · exact kick_home_game_state _ _ _
      · rfl

theorem advance_phase_p_game_state (g : Game) (pos : String) (roll : Int) :
    (advance_phase_p g pos roll).game_state = g.game_state := by
  simp only [advance_phase_p]
  split_ifs <;>
    simp [updatePlayer_game_state, occupied_space_check_game_state]

theorem advance_phase_q_game_state (g : Game) (pos : String) (roll : Int) :
    (advance_phase_q g pos roll).game_state = g.game_state := by
  simp only [advance_phase_q]
  split_ifs <;>
    simp [updatePlayer_game_state, occupied_space_check_game_state]

theorem propagate_phase_p_game_state (g1 : Game) (pos : String) :
    (propagate_phase_p g1 pos).game_state = g1.game_state := by
  simp only [propagate_phase_p]
  split_ifs <;> rfl

theorem propagate_phase_q_game_state (g1 : Game) (pos : String) :
    (propagate_phase_q g1 pos).game_state = g1.game_state := by
  simp only [propagate_phase_q]
  split_ifs <;> rfl

theorem stack_phase_game_state (g2 : Game) (pos : String) :
    (stack_phase g2 pos).game_state = g2.game_state := by
  simp only [stack_phase]
  split_ifs <;> rfl

theorem move_token_game_state (g : Game) (pos : String) (tok : Tok) (roll : Int) :
    (move_token g pos tok roll).game_state = g.game_state := by
  simp only [move_token]
  split_ifs <;> try rfl
  cases tok <;>
    simp [stack_phase_game_state, move_token_p, move_token_q,
      propagate_phase_p_game_state, propagate_phase_q_game_state,
      advance_phase_p_game_state, advance_phase_q_game_state]

theorem play_turn_game_state (g g' : Game) (t : String × Int)
    (h : play_turn g t = some g') : g'.game_state = g.game_state := by
  simp only [play_turn] at h
  split at h
  · exact Option.noConfusion h
  · have h2 := Option.some.inj h
    rw [← h2]
    split
    · exact move_token_game_state _ _ _ _
    · rfl

theorem turns_fold_game_state (ts : List (String × Int)) :
    ∀ g gf : Game, ts.foldlM play_turn g = some gf → gf.game_state = g.game_state := by
  induction ts with
  | nil =>
      intro g gf h
      simp only [List.foldlM_nil] at h
      rw [Option.some.inj h]
  | cons t ts ih =>
      intro g gf h
      simp only [List.foldlM_cons] at h
      cases hx : play_turn g t with
      | none => rw [hx] at h; exact Option.noConfusion h
      | some g1 =>
          rw [hx] at h
          simp at h
          exact (ih g1 gf h).trans (play_turn_game_state g g1 t hx)

theorem setup_fold_game_state (l : List String) :
    ∀ g : Game, (l.foldl setup_step g).game_state = g.game_state := by
  induction l with
  | nil => intro g; rfl
  | cons pos l ih =>
      intro g
      simp only [List.foldl_cons]
      exact ih (setup_step g pos)

/-- C6: after `play_game` has processed all turns, the overall status is the
complete tag exactly when the number of seats whose two location tags both
read `has finished` equals the number of participating seats minus one;
otherwise the status is still the in-progress tag. -/
theorem c6_completion (player_list : List String) (turn_list : List (String × Int))
    (g : Game) (spaces : List (Option String))
    (h : play_game player_list turn_list = some (g, spaces)) :
    (get_game_state g = "Game Complete" ↔
      (((player_list.filter (fun pos => decide ((getP g pos).loc_p = "has finished" ∧
          (getP g pos).loc_q = "has finished"))).length : Int)
        = (player_list.length : Int) - 1)) ∧
    (get_game_state g = "Game Complete" ∨ get_game_state g = "Still Playing") := by
  simp only [play_game] at h
  split at h
  · exact Option.noConfusion h
  · rename_i hnd
    split at h
    · exact Option.noConfusion h
    · rename_i gf hfold
      have hstate : gf.game_state = "Still Playing" := by
        have h1 := turns_fold_game_state turn_list _ gf hfold
        rw [h1, setup_fold_game_state]
        rfl
      have hcount : (player_list.filter (fun pos =>
          decide ((getP gf pos).loc_p = "has finished" ∧
            (getP gf pos).loc_q = "has finished"))) =
          (player_list.filter (fun pos => get_completed (getP gf pos))) := by
        apply List.filter_congr
        intro pos _
        simp [get_completed]
      have hpair := Prod.mk.inj (Option.some.inj h)
      by_cases hc : ((player_list.filter
          (fun pos => get_completed (getP gf pos))).length : Int) =
          (player_list.length : Int) - 1
      · rw [if_pos hc] at hpair
        have hgeq : g = { gf with game_state := "Game Complete" } := hpair.1.symm
        subst hgeq
        constructor
        · constructor
          · intro _
            rw [show (getP { gf with game_state := "Game Complete" } : String → PlayerState)
                = getP gf from rfl]
            rw [hcount]
            exact hc
          · intro _
            rfl
        · exact Or.inl rfl
      · rw [if_neg hc] at hpair
        have hgeq : g = gf := hpair.1.symm
        subst hgeq
        constructor
        · constructor
          · intro hcon
            rw [get_game_state, hstate] at hcon
            exact absurd hcon (by decide)
          · intro hcon
            rw [hcount] at hcon
            exact absurd hcon hc
        · rw [get_game_state, hstate]
          exact Or.inr rfl

/-- Witness for C6: a single seat with no turns is immediately one short of
everyone, so the status flips to the complete tag. -/
theorem c6_completion_witness :
    get_game_state (((play_game ["A"] []).getD (initGame, [])).1) = "Game Complete" := by
  have h : play_game ["A"] [] =
      some ((((play_game ["A"] []).getD (initGame, [])).1),
        (((play_game ["A"] []).getD (initGame, [])).2)) := by decide
  have hc := (c6_completion ["A"] [] _ _ h).1
  apply hc.mpr
  decide
